import Mathlib

/-!
Verification of the SamCore message-routing hub (vindennl48/Sam-SamCore).

The development shallowly embeds the current generation of the source
(`src/Server.js` third revision, `src/index.js` first revision, the newest
`Helpers` revision, `src/EditJsonFile.js`) and, where a claim depends on the
current-generation client library that is not present in the source tree,
a definition modelled from the specification (each such definition is marked
`Modelled from the spec:` in its doc comment).

JavaScript values are modelled by an inductive `Json` type; a JS property
lookup yields `Option Json`, with `none` playing the role of `undefined`.
-/

/-- JavaScript/JSON values as used by the packets and the settings store.
Objects are association lists of string keys (JS objects have unique keys;
the first binding wins on lookup). -/
inductive Json where
  | null
  | bool (b : Bool)
  | num (n : Int)
  | str (s : String)
  | obj (fields : List (String × Json))

/-- JS truthiness: `false`, `0`, `""` and `null` are falsy; objects are truthy.
(`undefined` is modelled by `Option.none` at use sites.) -/
def Json.truthy : Json → Bool
  | .null => false
  | .bool b => b
  | .num n => n != 0
  | .str s => s != ""
  | .obj _ => true

/-- JS `x || d` where `x` is a property access that may be `undefined`. -/
def jsOr (x : Option Json) (d : Json) : Json :=
  match x with
  | some v => if v.truthy then v else d
  | none => d

/-- Property lookup on a JS object (association list); `none` is `undefined`. -/
def olookup {α : Type} : List (String × α) → String → Option α
  | [], _ => none
  | (k, v) :: rest, key => if k = key then some v else olookup rest key

/-- Property assignment `o[key] = v` on a JS object: replace the first binding
of `key`, or append a new binding. -/
def oset {α : Type} : List (String × α) → String → α → List (String × α)
  | [], key, v => [(key, v)]
  | (k, w) :: rest, key, v =>
    if k = key then (k, v) :: rest else (k, w) :: oset rest key v

/-- `find-value` as used by `EditJsonFile.get`: walk the segment path through
nested objects; any miss or non-object intermediate yields `undefined`. -/
def jget : Json → List String → Option Json
  | j, [] => some j
  | .obj fs, k :: rest =>
    match olookup fs k with
    | some v => jget v rest
    | none => none
  | _, _ :: _ => none

/-- `set-value` as used by `EditJsonFile.set`: write at the segment path,
creating missing intermediate objects and overwriting non-object
intermediates with fresh objects. -/
def jset : Json → List String → Json → Json
  | _, [], v => v
  | .obj fs, k :: rest, v =>
    .obj (oset fs k (jset ((olookup fs k).getD (.obj [])) rest v))
  | _, k :: rest, v => .obj [(k, jset (.obj []) rest v)]

/-- Split a character list on `'.'` (the separator used by `set-value` /
`find-value` dotted paths). -/
def dotSplit : List Char → List (List Char)
  | [] => [[]]
  | c :: cs =>
    if c = '.' then [] :: dotSplit cs
    else
      match dotSplit cs with
      | [] => [[c]]
      | seg :: rest => (c :: seg) :: rest

/-- Dot-splitting of a string, as `set-value`/`find-value` do on a path. -/
def segsOf (s : String) : List String := (dotSplit s.data).map String.mk

/-- `EditJsonFile.set`/`get` join an array path with `"."` and the underlying
`set-value`/`find-value` split it again on `"."`; the composite effect on a
segment list is splitting each given segment at its own dots. -/
def splitSegs (path : List String) : List String := (path.map segsOf).flatten

/-- `EditJsonFile.set` on an array path (autosave writes the same tree). -/
def EditJsonFile.set (db : Json) (path : List String) (v : Json) : Json :=
  jset db (splitSegs path) v

/-- `EditJsonFile.get` on an array path; `none` is JS `undefined`. -/
def EditJsonFile.get (db : Json) (path : List String) : Option Json :=
  jget db (splitSegs path)

/-- The packet envelope as routed by the current `Server.js` (third revision)
and `index.js` (first revision).  `sender`, `receiver`, `apiCall` are the
routing strings; `returnCode` is a number or `null`; `args` is the
new-convention argument object; `data` is the legacy payload field, which a
packet may lack entirely (`none` = the property is `undefined`). -/
structure Packet where
  sender : String
  receiver : String
  apiCall : String
  returnCode : Option Int
  args : List (String × Json)
  data : Option (List (String × Json))
  status : Json
  result : Json
  errorMessage : Json

/-- One `ipc.server.broadcast(key, packet)` call. -/
structure Emit where
  key : String
  payload : Packet

/-- The broadcast key built by `Server.return` (Server.js lines 445-458):
`receiver.apiCall.return.sender`, with `.returnCode` appended when the code
is not `null` (`!==` is a strict test). -/
def Server.returnKey (p : Packet) : String :=
  let base := p.receiver ++ "." ++ p.apiCall ++ ".return." ++ p.sender
  match p.returnCode with
  | some c => base ++ "." ++ toString c
  | none => base

/-- `Server.return packet`: broadcast the packet unchanged under the return
key. -/
def Server.returnEmit (p : Packet) : Emit := ⟨Server.returnKey p, p⟩

/-- `Server.send packet` (Server.js lines 489-494): broadcast the packet
unchanged under `receiver.apiCall`.  It consults no registry. -/
def Server.sendEmit (p : Packet) : Emit := ⟨p.receiver ++ "." ++ p.apiCall, p⟩

/-- `Server.returnError` (Server.js lines 463-480): force `status = false`,
fill `errorMessage` only when it is exactly `false`, then return the packet. -/
def Server.returnErrorPacket (p : Packet) (msg : String) : Packet :=
  let q := { p with status := Json.bool false }
  match q.errorMessage with
  | Json.bool false => { q with errorMessage := Json.str msg }
  | _ => q

/-- The broadcast performed by `Server.returnError`. -/
def Server.returnErrorEmit (p : Packet) (msg : String) : Emit :=
  Server.returnEmit (Server.returnErrorPacket p msg)

/-- The catch-all dispatcher installed by `Server.run` on `'*'` (third
revision): ignore `connect`; on `<serverName>.return` run `Server.return`;
on `<serverName>.send` run `Server.send`; otherwise do nothing (the
`returnError` branch is commented out in the source). -/
def Server.dispatch (serverName message : String) (p : Packet) : List Emit :=
  if message = "connect" then []
  else if message = serverName ++ ".return" then [Server.returnEmit p]
  else if message = serverName ++ ".send" then [Server.sendEmit p]
  else []

/-- The `<serverName>.greenLight` built-in handler (third revision): set
`packet.result` to the hub's greenLight flag and return the packet. -/
def Server.greenLightReply (gl : Bool) (p : Packet) : Packet :=
  { p with result := Json.bool gl }

/-- The broadcast performed by the greenLight handler. -/
def Server.greenLightEmit (gl : Bool) (p : Packet) : Emit :=
  Server.returnEmit (Server.greenLightReply gl p)

/-- JavaScript runtime errors relevant to the embedded code paths. -/
inductive JsError where
  | enoent
  | jsonParseError
  | referenceError (name : String)
  | typeError
  deriving DecidableEq, Repr

/-- JS string coercion as performed by `'helloWorld! ' + value`. -/
def jsToString : Json → String
  | .str s => s
  | .num n => toString n
  | .bool b => if b then "true" else "false"
  | .null => "null"
  | .obj _ => "[object Object]"

/-- The `helloWorld` built-in handler (index.js lines 50-60).  It tests
`'text' in packet.data` (the legacy `data` field, not `args`); with `data`
absent the `in` operator throws a TypeError.  On success it replaces `data`
by `{result: 'helloWorld! ' + text}` and returns the packet unchanged
otherwise; on a missing `text` it calls `Server.returnError`. -/
def helloWorldHandler (p : Packet) : Except JsError Emit :=
  match p.data with
  | none => Except.error JsError.typeError
  | some d =>
    match olookup d "text" with
    | none => Except.ok (Server.returnErrorEmit p "text argument not included!")
    | some t =>
      Except.ok (Server.returnEmit
        { p with data := some [("result", Json.str ("helloWorld! " ++ jsToString t))] })

/-- The `getSettings` built-in handler (index.js lines 135-147): read
`packages.<sender>.settings`; if defined, reply with `data = {result: it}`,
else reply with an error. -/
def getSettingsHandler (db : Json) (p : Packet) : Emit :=
  match EditJsonFile.get db ["packages", p.sender, "settings"] with
  | some s => Server.returnEmit { p with data := some [("result", s)] }
  | none =>
    Server.returnErrorEmit p
      ("Settings could not be found for node '" ++ p.sender ++ "'!")

/-- The `setSettings` built-in handler (index.js lines 156-173): require
`'settings' in packet.data` (TypeError when `data` is absent); if
`packages.<sender>` exists, write `packages.<sender>.settings` and return the
packet, else reply with an error and leave the store untouched. -/
def setSettingsHandler (db : Json) (p : Packet) : Except JsError (Json × Emit) :=
  match p.data with
  | none => Except.error JsError.typeError
  | some d =>
    match olookup d "settings" with
    | none => Except.ok (db, Server.returnErrorEmit p "settings argument not included!")
    | some v =>
      if (EditJsonFile.get db ["packages", p.sender]).isSome then
        Except.ok (EditJsonFile.set db ["packages", p.sender, "settings"] v,
          Server.returnEmit p)
      else
        Except.ok (db,
          Server.returnErrorEmit p "There is an issue with the SamCoreSettings.json file!")

/-- `Helpers.defaultPackage` (newest Helpers revision): each field comes from
`args` when the property is present, else from the listed default. -/
def Helpers.defaultPackage (args : List (String × Json)) : Json :=
  Json.obj [
    ("version", ((olookup args "version").getD (Json.str "1.0.0"))),
    ("development", ((olookup args "development").getD (Json.bool false))),
    ("installed", ((olookup args "installed").getD (Json.bool false))),
    ("enabled", ((olookup args "enabled").getD (Json.bool true))),
    ("persistent", ((olookup args "persistent").getD (Json.bool false))),
    ("mandatory", ((olookup args "mandatory").getD (Json.bool false))),
    ("link", ((olookup args "link").getD (Json.str ""))),
    ("settings", ((olookup args "settings").getD (Json.obj [])))]

/-- Outcome of `fs.readFileSync` + `JSON.parse` on the settings file:
a missing file throws ENOENT, an empty (or otherwise unparsable) file makes
`JSON.parse` throw, and a well-formed file parses to a document. -/
inductive FileState where
  | missing
  | emptyFile
  | content (j : Json)

/-- `EditJsonFile.read` (EditJsonFile.js lines 170-184): the body is exactly
`JSON.parse(fs.readFileSync(this.path))`; the `try/catch` that would return
`{}` on failure is commented out, so both failure cases throw (even though
the function's own doc comment promises "an empty object by default"). -/
def EditJsonFile.read (fs : FileState) : Except JsError Json :=
  match fs with
  | .missing => Except.error JsError.enoent
  | .emptyFile => Except.error JsError.jsonParseError
  | .content j => Except.ok j

/-- The package record the hub startup intends to seed for itself
(index.js lines 20-26). -/
def samcoreSeedRecord : Json :=
  Helpers.defaultPackage [
    ("version", Json.str "1.0.0"),
    ("installed", Json.bool true),
    ("persistent", Json.bool true),
    ("mandatory", Json.bool true),
    ("link", Json.str "https://github.com/vindennl48/Sam-SamCore")]

/-- Hub startup (index.js lines 17-27): construct the store (whose
constructor runs `EditJsonFile.read`, propagating its exceptions) and then
evaluate the seed guard `db.get(['packages', servername]) === undefined`.
The identifier `servername` is unbound (the variable in scope is
`serverName`), so when the read succeeds the guard itself throws
`ReferenceError: servername is not defined` before any seeding happens. -/
def samcoreStartup (fs : FileState) : Except JsError Json :=
  match EditJsonFile.read fs with
  | Except.error e => Except.error e
  | Except.ok _db => Except.error (JsError.referenceError "servername")

/-- Arguments object handed to `Helpers.Packet.new`; `none` marks an absent
property (`undefined`). -/
structure NewArgs where
  sender : Option Json
  receiver : Option Json
  apiCall : Option Json
  returnCode : Option Json
  args : Option Json
  status : Option Json
  result : Option Json
  errorMessage : Option Json

/-- The object literal returned by `Helpers.Packet.new`. -/
structure NewPacket where
  sender : Json
  receiver : Json
  apiCall : Json
  returnCode : Json
  args : Json
  status : Json
  result : Json
  errorMessage : Json

/-- `Helpers.Packet.new` (newest Helpers revision, lines 430-453): every
field is `args.<field> || default`; `returnCode` is `Date.now()` (the `now`
parameter) unless `args.returnCode === false`, in which case it is `null`. -/
def Helpers.Packet.new (a : NewArgs) (now : Int) : NewPacket :=
  let returnCode :=
    match a.returnCode with
    | some (Json.bool false) => Json.null
    | _ => Json.num now
  { sender := jsOr a.sender (Json.str ""),
    receiver := jsOr a.receiver (Json.str ""),
    apiCall := jsOr a.apiCall (Json.str ""),
    returnCode := returnCode,
    args := jsOr a.args (Json.obj []),
    status := jsOr a.status (Json.bool true),
    result := jsOr a.result (Json.num 0),
    errorMessage := jsOr a.errorMessage (Json.bool false) }

/-- The loop body of `Helpers.Packet.checkArgs` (newest Helpers revision,
lines 481-490): for each name missing from `packet.args` the callback calls
`parent.returnError(packet, ...)` (which mutates the packet and broadcasts
it) and then executes `return false` — which only leaves the `forEach`
callback, not `checkArgs`, so iteration continues over every name. -/
def Helpers.Packet.checkArgsGo (p : Packet) : List String → List Emit
  | [] => []
  | a :: rest =>
    match olookup p.args a with
    | some _ => Helpers.Packet.checkArgsGo p rest
    | none =>
      let q := Server.returnErrorPacket p (a ++ " argument not included in packet!")
      Server.returnEmit q :: Helpers.Packet.checkArgsGo q rest

/-- `Helpers.Packet.checkArgs`: the emitted error broadcasts and the value
the function returns.  Because the `return false` inside the `forEach`
callback cannot return from `checkArgs`, control always reaches the final
`return true`. -/
def Helpers.Packet.checkArgs (argsNames : List String) (p : Packet) : List Emit × Bool :=
  (Helpers.Packet.checkArgsGo p argsNames, true)

/-- The synthetic value the timer branch of `Helpers._promise` resolves with
(newest Helpers revision, line 147): note the `status`/`errorMessage` fields
sit inside a `data` property, not at the top level. -/
def apiTimeoutPacket : Json :=
  Json.obj [("data",
    Json.obj [("status", Json.bool false), ("errorMessage", Json.str "API Timeout!")])]

/-- `Helpers._promise(call, timelimit)` (lines 137-153), with real time
abstracted to resolution instants: `callTime` is the instant the wrapped
call would resolve (`none` if never) and `callValue` its value.  With
`timelimit = 0` no timer is armed and the race is the call alone; otherwise
the earlier of the call and the timer wins (the call wins ties, being first
in the race array).  The `finally` clause only clears the timer. -/
def Helpers.promiseRace (callTime : Option Nat) (callValue : Json) (timelimit : Nat) :
    Option Json :=
  if timelimit = 0 then
    callTime.map (fun _ => callValue)
  else
    some (match callTime with
      | some t => if t ≤ timelimit then callValue else apiTimeoutPacket
      | none => apiTimeoutPacket)

/-- The wire object of the legacy `EXTERNAL` protocol (second index.js
revision, lines 326-357). -/
structure ExtData where
  nodeSender : String
  nodeReceiver : String
  apiCall : String
  packet : List (String × Json)

/-- A targeted `ipc.server.emit(socket, event, payload)` of the legacy hub. -/
inductive IpcEmit where
  | emitTo (socket : Nat) (event : String) (payload : ExtData)

/-- The legacy `EXTERNAL` handler (second index.js revision, lines 345-356):
if `data.nodeReceiver` is registered, relay the data object unchanged to its
socket as a `message`; otherwise emit an `error` event back on the caller's
socket whose packet carries `response = 'Node "<name>" does not exist!'`. -/
def externalHandler (nodeName : String) (mySockets : List (String × Nat))
    (senderSocket : Nat) (d : ExtData) : IpcEmit :=
  match olookup mySockets d.nodeReceiver with
  | some sock => IpcEmit.emitTo sock "message" d
  | none =>
    IpcEmit.emitTo senderSocket "error"
      { nodeSender := nodeName,
        nodeReceiver := d.nodeSender,
        apiCall := d.apiCall,
        packet := [("response",
          Json.str ("Node \"" ++ d.nodeReceiver ++ "\" does not exist!"))] }

/-- Modelled from the spec: the current-generation client library is absent
from the source tree (the `Client.js` revisions present predate it); per
spec §4.4 step 3, `callApi` registers its one-shot reply listener on the key
`<receiver>.<apiCall>.return.<nodeName>.<returnCode>`. -/
def Client.callApiListenerKey (nodeName receiver apiCall : String) (c : Int) : String :=
  (receiver ++ "." ++ apiCall ++ ".return." ++ nodeName) ++ "." ++ toString c

/-- Observable steps of the client startup sequence (spec §4.4). -/
inductive ClientEvent where
  | connected
  | nodeInitSent
  | baseListenersInstalled
  | greenLightPoll (response : Bool)
  | onInitRun
  | handlersBound
  | onConnectRun
  deriving DecidableEq, Repr

/-- Modelled from the spec: the greenLight polling loop of the
current-generation client (absent from the source tree) — query `greenLight`
once per second until it answers `true`.  `g i` is the hub's answer to the
`i`-th poll; `fuel` bounds how many polls we observe; `none` means the loop
was still polling when the fuel ran out. -/
def pollFrom (g : Nat → Bool) : Nat → Nat → Option (List ClientEvent)
  | _, 0 => none
  | i, fuel + 1 =>
    if g i then some [ClientEvent.greenLightPoll true]
    else (pollFrom g (i + 1) fuel).map (fun l => ClientEvent.greenLightPoll false :: l)

/-- Modelled from the spec: the ordered startup sequence of the
current-generation client `run` (spec §4.4): connect, `nodeInit`, install
the always-on listeners, poll `greenLight` until true, run `onInit`, bind
the user-registered handlers, run `onConnect`. -/
def clientRunTrace (g : Nat → Bool) (fuel : Nat) : Option (List ClientEvent) :=
  (pollFrom g 0 fuel).map (fun polls =>
    [ClientEvent.connected, ClientEvent.nodeInitSent, ClientEvent.baseListenersInstalled]
      ++ polls
      ++ [ClientEvent.onInitRun, ClientEvent.handlersBound, ClientEvent.onConnectRun])

/-- A representative request packet: `alice` calling `helloWorld` on the hub
with correlation code 42. -/
def samplePacket : Packet :=
  { sender := "alice", receiver := "samcore", apiCall := "helloWorld",
    returnCode := some 42, args := [("text", Json.str "there")], data := none,
    status := Json.bool true, result := Json.num 0, errorMessage := Json.bool false }

/-- A routed packet addressed to the unregistered node `carol`. -/
def sendCexPacket : Packet :=
  { sender := "alice", receiver := "carol", apiCall := "ping",
    returnCode := some 7, args := [], data := none,
    status := Json.bool true, result := Json.num 0, errorMessage := Json.bool false }

/-- A `helloWorld` request whose `args` carry `text` but whose legacy `data`
property is absent, as produced by the current `Helpers.Packet.new`. -/
def helloCexPacket : Packet :=
  { sender := "alice", receiver := "samcore", apiCall := "helloWorld",
    returnCode := some 42, args := [("text", Json.str "there")], data := none,
    status := Json.bool true, result := Json.num 0, errorMessage := Json.bool false }

/-- Like `helloCexPacket` but with an empty `data` object present. -/
def helloCexPacket2 : Packet := { helloCexPacket with data := some [] }

/-- A `helloWorld` request whose `data` carries `text`. -/
def helloOkPacket : Packet :=
  { helloCexPacket with data := some [("text", Json.str "there")] }

/-- A packet with an empty `args` object. -/
def missingArgsPacket : Packet :=
  { sender := "alice", receiver := "samcore", apiCall := "helloWorld",
    returnCode := some 7, args := [], data := none,
    status := Json.bool true, result := Json.num 0, errorMessage := Json.bool false }

/-- Arguments to `Helpers.Packet.new` that supply falsy `status` and `result`. -/
def falsyArgs : NewArgs :=
  { sender := some (Json.str "alice"), receiver := some (Json.str "samcore"),
    apiCall := some (Json.str "helloWorld"), returnCode := none,
    args := some (Json.obj [("text", Json.str "there")]),
    status := some (Json.bool false), result := some (Json.num 0),
    errorMessage := none }

/-- A settings store with package entries for the hub and two nodes. -/
def sampleDb : Json :=
  Json.obj [("packages", Json.obj [
    ("samcore", Json.obj [("settings", Json.obj [])]),
    ("alice", Json.obj [("settings", Json.obj [("theme", Json.str "dark")])]),
    ("bob", Json.obj [("settings", Json.obj [("volume", Json.num 3)])])])]

/-- A `setSettings` request from `alice`. -/
def setSettingsPacket : Packet :=
  { sender := "alice", receiver := "samcore", apiCall := "setSettings",
    returnCode := some 9, args := [],
    data := some [("settings", Json.obj [("theme", Json.str "light")])],
    status := Json.bool true, result := Json.num 0, errorMessage := Json.bool false }

/-- A legacy `EXTERNAL` request from `alice` to the absent node `carol`. -/
def extReqCarol : ExtData :=
  { nodeSender := "alice", nodeReceiver := "carol", apiCall := "ping", packet := [] }

/-- C10: `Helpers.Packet.new` coerces its caller's `status` and `result`
through `||`: the constructed packet's `status` is always truthy (and is the
boolean `true` whenever the caller passed `false` or nothing), and a falsy or
absent `result` is replaced by `0`; hence no packet with `status = false` can
be built through `Packet.new`. -/
theorem packetNew_status_result_defaults (a : NewArgs) (now : Int) :
    (Helpers.Packet.new a now).status.truthy = true
    ∧ (a.status = some (Json.bool false) →
        (Helpers.Packet.new a now).status = Json.bool true)
    ∧ (a.status = none → (Helpers.Packet.new a now).status = Json.bool true)
    ∧ (∀ v, a.result = some v → v.truthy = false →
        (Helpers.Packet.new a now).result = Json.num 0)
    ∧ (a.result = none → (Helpers.Packet.new a now).result = Json.num 0) := by
  have hs : (Helpers.Packet.new a now).status = jsOr a.status (Json.bool true) := rfl
  have hr : (Helpers.Packet.new a now).result = jsOr a.result (Json.num 0) := rfl
  refine ⟨?_, ?_, ?_, ?_, ?_⟩
  · rw [hs]
    cases h : a.status with
    | none => rfl
    | some v =>
      simp only [jsOr]
      by_cases hv : v.truthy = true
      · rw [if_pos hv]; exact hv
      · rw [if_neg hv]; rfl
  · intro h; rw [hs, h]; rfl
  · intro h; rw [hs, h]; rfl
  · intro v h hv; rw [hr, h]; simp [jsOr, hv]
  · intro h; rw [hr, h]; rfl

/-- C10 witness: with `status = false` and `result = 0` supplied, the
constructed packet has `status = true` and `result = 0`. -/
theorem packetNew_status_result_defaults_witness :
    (Helpers.Packet.new falsyArgs 5).status = Json.bool true
    ∧ (Helpers.Packet.new falsyArgs 5).result = Json.num 0 := by
  have h := packetNew_status_result_defaults falsyArgs 5
  exact ⟨h.2.1 rfl, h.2.2.2.1 (Json.num 0) rfl rfl⟩

/-- C9: `Packet.checkArgs` does not return `false` when a name is missing —
the `return false` sits inside the `forEach` callback, so the function's own
`return true` is always reached; on a packet with empty `args` and required
name `text` it still returns `true`, while broadcasting an error reply that
names the missing field. -/
theorem checkArgs_always_returns_true :
    (∀ (argsNames : List String) (p : Packet),
      (Helpers.Packet.checkArgs argsNames p).2 = true)
    ∧ Helpers.Packet.checkArgs ["text"] missingArgsPacket
        = ([Server.returnEmit
            (Server.returnErrorPacket missingArgsPacket
              "text argument not included in packet!")], true) := by
  exact ⟨fun _ _ => rfl, rfl⟩

/-- C7 counterexample: when the timer wins the race, `Helpers._promise`
resolves with `{data: {status: false, errorMessage: 'API Timeout!'}}` — the
resolved value has no top-level `status` field at all (it is `undefined`);
the fields sit nested under `data`. -/
theorem promiseTimeout_not_toplevel_cex :
    Helpers.promiseRace none (Json.obj []) 5000 = some apiTimeoutPacket
    ∧ jget apiTimeoutPacket ["status"] = none
    ∧ jget apiTimeoutPacket ["errorMessage"] = none
    ∧ jget apiTimeoutPacket ["data", "status"] = some (Json.bool false) := by
  refine ⟨rfl, ?_, ?_, ?_⟩ <;> simp [apiTimeoutPacket, jget, olookup]

/-- C7 (amended): with a timeout configured (`timelimit ≠ 0`) and the reply
not arrived by the deadline, the race resolves with the synthetic packet
whose `data.status` is `false` and whose `data.errorMessage` is
`'API Timeout!'` (the fields are nested under `data`, not top-level); the
race yields a single value and the `finally` clause only clears the timer. -/
theorem promiseTimeout_amended (callTime : Option Nat) (callValue : Json)
    (timelimit : Nat) (hne : timelimit ≠ 0)
    (hlate : ∀ t, callTime = some t → timelimit < t) :
    Helpers.promiseRace callTime callValue timelimit = some apiTimeoutPacket
    ∧ jget apiTimeoutPacket ["data", "status"] = some (Json.bool false)
    ∧ jget apiTimeoutPacket ["data", "errorMessage"] = some (Json.str "API Timeout!") := by
  refine ⟨?_, ?_, ?_⟩
  · unfold Helpers.promiseRace
    rw [if_neg hne]
    cases h : callTime with
    | none => rfl
    | some t =>
      have h2 := hlate t h
      show some (if t ≤ timelimit then callValue else apiTimeoutPacket)
        = some apiTimeoutPacket
      rw [if_neg (by omega)]
  · simp [apiTimeoutPacket, jget, olookup]
  · simp [apiTimeoutPacket, jget, olookup]

/-- C7 witness: a call that would resolve at instant 9000 against a 5000 ms
deadline times out with the synthetic packet. -/
theorem promiseTimeout_amended_witness :
    Helpers.promiseRace (some 9000) (Json.obj []) 5000 = some apiTimeoutPacket
    ∧ jget apiTimeoutPacket ["data", "status"] = some (Json.bool false)
    ∧ jget apiTimeoutPacket ["data", "errorMessage"] = some (Json.str "API Timeout!") := by
  refine promiseTimeout_amended (some 9000) (Json.obj []) 5000 (by decide) ?_
  intro t ht
  cases ht
  decide

/-- C5: the hub's forwarding paths rewrite nothing: on the
`<serverName>.send` and `<serverName>.return` dispatch branches the emitted
payload is the very packet received — in particular `args`, `result`,
`status` and `errorMessage` are identical — and only the transport key is
computed. -/
theorem forward_preserves_fields (sn msg : String) (p : Packet)
    (hnc : msg ≠ "connect") :
    (msg = sn ++ ".return" →
      Server.dispatch sn msg p = [Server.returnEmit p]
      ∧ (Server.returnEmit p).payload = p)
    ∧ (msg = sn ++ ".send" → msg ≠ sn ++ ".return" →
      Server.dispatch sn msg p = [Server.sendEmit p]
      ∧ (Server.sendEmit p).payload = p)
    ∧ (Server.returnEmit p).payload.args = p.args
    ∧ (Server.returnEmit p).payload.result = p.result
    ∧ (Server.returnEmit p).payload.status = p.status
    ∧ (Server.returnEmit p).payload.errorMessage = p.errorMessage
    ∧ (Server.sendEmit p).payload.args = p.args
    ∧ (Server.sendEmit p).payload.result = p.result
    ∧ (Server.sendEmit p).payload.status = p.status
    ∧ (Server.sendEmit p).payload.errorMessage = p.errorMessage := by
  refine ⟨?_, ?_, rfl, rfl, rfl, rfl, rfl, rfl, rfl, rfl⟩
  · intro h
    simp only [Server.dispatch]
    rw [if_neg hnc, if_pos h]
    exact ⟨rfl, rfl⟩
  · intro hs hr
    simp only [Server.dispatch]
    rw [if_neg hnc, if_neg hr, if_pos hs]
    exact ⟨rfl, rfl⟩

/-- C5 witness: dispatching `samcore.return` forwards the sample packet
unchanged. -/
theorem forward_preserves_fields_witness :
    Server.dispatch "samcore" "samcore.return" samplePacket
      = [Server.returnEmit samplePacket]
    ∧ (Server.returnEmit samplePacket).payload = samplePacket := by
  exact (forward_preserves_fields "samcore" "samcore.return" samplePacket
    (by decide)).1 (by decide)

/-- C1: correlation is preserved.  For a request `P` from sender `S` with
non-null correlation code `C`, any reply packet `Q` that carries the
request's `sender`, `receiver`, `apiCall` and `returnCode` is broadcast by
`Server.return` exactly on the key the spec-modelled `callApi` listener of
`S` is registered on, and the delivered payload has `receiver = P.receiver`,
`apiCall = P.apiCall` and `returnCode = C`; in particular the hub's own
`greenLight` built-in produces such a reply. -/
theorem reply_correlation (P Q : Packet) (C : Int)
    (hC : P.returnCode = some C)
    (hqs : Q.sender = P.sender) (hqr : Q.receiver = P.receiver)
    (hqa : Q.apiCall = P.apiCall) (hqc : Q.returnCode = P.returnCode) :
    (Server.returnEmit Q).key
        = Client.callApiListenerKey P.sender P.receiver P.apiCall C
    ∧ (Server.returnEmit Q).payload.receiver = P.receiver
    ∧ (Server.returnEmit Q).payload.apiCall = P.apiCall
    ∧ (Server.returnEmit Q).payload.returnCode = some C
    ∧ ∀ gl, (Server.greenLightEmit gl P).key
        = Client.callApiListenerKey P.sender P.receiver P.apiCall C := by
  refine ⟨?_, hqr, hqa, hqc.trans hC, ?_⟩
  · show Server.returnKey Q = _
    simp only [Server.returnKey, hqs, hqr, hqa, hqc, hC]
    rfl
  · intro gl
    show Server.returnKey (Server.greenLightReply gl P) = _
    simp only [Server.returnKey, Server.greenLightReply, hC]
    rfl

/-- C1 witness: the greenLight reply to the sample request is broadcast on
the key `samcore.helloWorld.return.alice.42`, the listener key of `alice`
for code 42. -/
theorem reply_correlation_witness :
    (Server.returnEmit (Server.greenLightReply true samplePacket)).key
      = Client.callApiListenerKey "alice" "samcore" "helloWorld" 42
    ∧ (Server.returnEmit (Server.greenLightReply true samplePacket)).payload.returnCode
      = some 42 := by
  have h := reply_correlation samplePacket (Server.greenLightReply true samplePacket)
    42 rfl rfl rfl rfl rfl
  exact ⟨h.1, h.2.2.2.1⟩

/-- C2 counterexample: a `samcore.send` packet addressed to the unregistered
node `carol` is still forwarded — the dispatcher broadcasts it under
`carol.ping` without consulting any registry, and the emitted payload still
has `status = true` and `errorMessage = false`: no error reply of the form
`Node "carol" does not exist!` is produced on the send path. -/
theorem send_no_registry_check_cex :
    Server.dispatch "samcore" "samcore.send" sendCexPacket
      = [Server.sendEmit sendCexPacket]
    ∧ (Server.sendEmit sendCexPacket).key = "carol" ++ "." ++ "ping"
    ∧ (Server.sendEmit sendCexPacket).payload.status = Json.bool true
    ∧ (Server.sendEmit sendCexPacket).payload.errorMessage = Json.bool false := by
  refine ⟨?_, rfl, rfl, rfl⟩
  simp only [Server.dispatch]
  rw [if_neg (by decide), if_neg (by decide), if_pos (by decide)]

/-- C2 (amended): the current hub forwards every `samcore.send` packet
unconditionally under `<receiver>.<apiCall>` with no registry lookup and no
error reply; the receiver-existence check and the error text
`Node "<name>" does not exist!` exist only in the legacy `EXTERNAL` handler,
which relays to the receiver's socket when registered and otherwise emits an
`error` event back to the caller whose packet carries
`response = 'Node "<name>" does not exist!'`. -/
theorem send_forwards_and_legacy_checks (p : Packet) (nodeName : String)
    (mySockets : List (String × Nat)) (senderSocket : Nat) (d : ExtData) :
    Server.dispatch "samcore" "samcore.send" p = [Server.sendEmit p]
    ∧ (∀ sock, olookup mySockets d.nodeReceiver = some sock →
        externalHandler nodeName mySockets senderSocket d
          = IpcEmit.emitTo sock "message" d)
    ∧ (olookup mySockets d.nodeReceiver = none →
        externalHandler nodeName mySockets senderSocket d
          = IpcEmit.emitTo senderSocket "error"
              { nodeSender := nodeName, nodeReceiver := d.nodeSender,
                apiCall := d.apiCall,
                packet := [("response",
                  Json.str ("Node \"" ++ d.nodeReceiver ++ "\" does not exist!"))] }) := by
  refine ⟨?_, ?_, ?_⟩
  · simp only [Server.dispatch]
    rw [if_neg (by decide), if_neg (by decide), if_pos (by decide)]
  · intro sock h
    simp only [externalHandler, h]
  · intro h
    simp only [externalHandler, h]

/-- C2 witness: with only `alice` registered, a legacy `EXTERNAL` request to
`carol` is answered with the `error` event naming the missing node. -/
theorem send_forwards_and_legacy_checks_witness :
    externalHandler "samCore" [("alice", 0)] 0 extReqCarol
      = IpcEmit.emitTo 0 "error"
          { nodeSender := "samCore", nodeReceiver := "alice", apiCall := "ping",
            packet := [("response",
              Json.str ("Node \"" ++ "carol" ++ "\" does not exist!"))] } := by
  exact (send_forwards_and_legacy_checks sendCexPacket "samCore" [("alice", 0)] 0
    extReqCarol).2.2 rfl

/-- C4: with a missing or empty `SamCoreSettings.json`, hub startup does not
succeed: `EditJsonFile.read` throws (missing file → ENOENT, empty file →
`JSON.parse` failure; the `{}` fallback is commented out), and even with a
parseable file the seed guard throws `ReferenceError` because it reads the
unbound identifier `servername`; the seed record the code intends to write
does match the claimed defaults (`version "1.0.0"`, `development false`,
`enabled true`, non-absent `link`, `settings {}`, with overrides
`installed`, `persistent`, `mandatory` all `true`). -/
theorem startup_crashes_on_missing_or_empty_settings :
    samcoreStartup FileState.emptyFile = Except.error JsError.jsonParseError
    ∧ samcoreStartup FileState.missing = Except.error JsError.enoent
    ∧ samcoreStartup (FileState.content (Json.obj []))
        = Except.error (JsError.referenceError "servername")
    ∧ (∀ fs, ∃ e, samcoreStartup fs = Except.error e)
    ∧ samcoreSeedRecord = Json.obj [
        ("version", Json.str "1.0.0"),
        ("development", Json.bool false),
        ("installed", Json.bool true),
        ("enabled", Json.bool true),
        ("persistent", Json.bool true),
        ("mandatory", Json.bool true),
        ("link", Json.str "https://github.com/vindennl48/Sam-SamCore"),
        ("settings", Json.obj [])] := by
  refine ⟨rfl, rfl, rfl, ?_, ?_⟩
  · intro fs
    cases fs with
    | missing => exact ⟨_, rfl⟩
    | emptyFile => exact ⟨_, rfl⟩
    | content j => exact ⟨_, rfl⟩
  · simp [samcoreSeedRecord, Helpers.defaultPackage, olookup]

/-- C8 counterexample: a `helloWorld` request whose `args` contain `text`
does not get the claimed success reply — the handler reads the legacy
`data` field: with `data` absent (as `Helpers.Packet.new` builds packets)
the `in` test throws a TypeError and no reply exists; with an empty `data`
object present the reply is the error `text argument not included!` with
`status = false`, despite `args.text = "there"`. -/
theorem helloWorld_args_ignored_cex :
    helloWorldHandler helloCexPacket = Except.error JsError.typeError
    ∧ helloWorldHandler helloCexPacket2
        = Except.ok (Server.returnErrorEmit helloCexPacket2 "text argument not included!")
    ∧ (Server.returnErrorPacket helloCexPacket2 "text argument not included!").status
        = Json.bool false
    ∧ (Server.returnErrorPacket helloCexPacket2 "text argument not included!").errorMessage
        = Json.str "text argument not included!" := by
  exact ⟨rfl, rfl, rfl, rfl⟩

/-- C8 (amended): the `helloWorld` handler keys off `packet.data`, not
`packet.args`: when `data` carries `text` the reply keeps the incoming
`status` (true for default-built packets) and carries the greeting in
`data.result` (the top-level `result` is untouched); when `data` is an
object without `text` the reply has `status = false` and
`errorMessage = 'text argument not included!'` (given the incoming
`errorMessage` is `false`); when `data` is absent the handler throws and no
reply is emitted. -/
theorem helloWorld_data_semantics (p : Packet) (d : List (String × Json))
    (hd : p.data = some d) :
    (∀ t, olookup d "text" = some t →
      helloWorldHandler p = Except.ok (Server.returnEmit
        { p with data := some [("result", Json.str ("helloWorld! " ++ jsToString t))] }))
    ∧ (olookup d "text" = none → p.errorMessage = Json.bool false →
      helloWorldHandler p = Except.ok (Server.returnEmit
        { p with status := Json.bool false,
                 errorMessage := Json.str "text argument not included!" }))
    ∧ (∀ q : Packet, q.data = none →
      helloWorldHandler q = Except.error JsError.typeError) := by
  refine ⟨?_, ?_, ?_⟩
  · intro t ht
    simp only [helloWorldHandler, hd, ht]
  · intro h1 h2
    simp only [helloWorldHandler, hd, h1, Server.returnErrorEmit,
      Server.returnErrorPacket, h2]
  · intro q hq
    simp only [helloWorldHandler, hq]

/-- C8 witness: with `data = {text: "there"}` the handler replies with the
greeting stored in `data.result` and leaves `status` at `true`. -/
theorem helloWorld_data_semantics_witness :
    helloWorldHandler helloOkPacket = Except.ok (Server.returnEmit
      { helloOkPacket with
          data := some [("result", Json.str ("helloWorld! " ++ jsToString (Json.str "there")))] })
    ∧ (Server.returnEmit
        { helloOkPacket with
            data := some [("result", Json.str ("helloWorld! " ++ jsToString (Json.str "there")))] }).payload.status
      = Json.bool true := by
  have h := (helloWorld_data_semantics helloOkPacket [("text", Json.str "there")] rfl).1
    (Json.str "there") rfl
  exact ⟨h, rfl⟩

theorem olookup_oset_self {α : Type} (l : List (String × α)) (k : String) (v : α) :
    olookup (oset l k v) k = some v := by
  induction l with
  | nil => simp [oset, olookup]
  | cons hd tl ih =>
    obtain ⟨k', w⟩ := hd
    by_cases h : k' = k
    · subst h; simp [oset, olookup]
    · simp [oset, olookup, h, ih]

theorem olookup_oset_ne {α : Type} (l : List (String × α)) (k k' : String) (v : α)
    (h : k' ≠ k) : olookup (oset l k v) k' = olookup l k' := by
  induction l with
  | nil =>
    simp only [oset, olookup]
    rw [if_neg (fun hk => h hk.symm)]
  | cons hd tl ih =>
    obtain ⟨a, w⟩ := hd
    simp only [oset]
    by_cases ha : a = k
    · rw [if_pos ha]
      simp only [olookup]
      subst ha
      rw [if_neg (fun hk => h hk.symm), if_neg (fun hk => h hk.symm)]
    · rw [if_neg ha]
      simp only [olookup]
      by_cases hak : a = k'
      · rw [if_pos hak, if_pos hak]
      · rw [if_neg hak, if_neg hak]
        exact ih

theorem jget_obj (gs : List (String × Json)) (k : String) (rest : List String) :
    jget (Json.obj gs) (k :: rest)
      = match olookup gs k with
        | some u => jget u rest
        | none => none := rfl

theorem jset_obj (gs : List (String × Json)) (k : String) (rest : List String) (v : Json) :
    jset (Json.obj gs) (k :: rest) v
      = Json.obj (oset gs k (jset ((olookup gs k).getD (Json.obj [])) rest v)) := rfl

theorem jget_jset_ne_head (c : Json) (S X : String) (h : X ≠ S)
    (p q : List String) (v : Json) :
    jget (jset c (S :: p) v) (X :: q) = jget c (X :: q) := by
  have hno : ∀ w : Json, jget (Json.obj [(S, w)]) (X :: q) = none := by
    intro w
    rw [jget_obj]
    have : olookup [(S, w)] X = none := by
      simp only [olookup]
      rw [if_neg (fun hk => h hk.symm)]
    rw [this]
  cases c with
  | obj fs =>
    rw [jset_obj, jget_obj, jget_obj, olookup_oset_ne fs S X _ h]
  | null => exact (hno _).trans rfl
  | bool b => exact (hno _).trans rfl
  | num n => exact (hno _).trans rfl
  | str s => exact (hno _).trans rfl

theorem settings_frame (db : Json) (S X : String) (hne : X ≠ S) (v : Json) :
    jget (jset db ["packages", S, "settings"] v) ["packages", X, "settings"]
      = jget db ["packages", X, "settings"] := by
  have hpack : ∀ w : Json, jget (Json.obj [("packages", w)]) ["packages", X, "settings"]
      = jget w [X, "settings"] := fun w => rfl
  cases db with
  | obj fs =>
    rw [jset_obj, jget_obj, jget_obj, olookup_oset_self fs "packages"]
    cases hq : olookup fs "packages" with
    | none =>
      simp only [Option.getD]
      rw [jget_jset_ne_head _ S X hne]
      rfl
    | some c =>
      simp only [Option.getD]
      exact jget_jset_ne_head _ S X hne _ _ _
  | null =>
    show jget (Json.obj [("packages", jset (Json.obj []) [S, "settings"] v)]) _ = _
    rw [hpack, jget_jset_ne_head _ S X hne]
    rfl
  | bool b =>
    show jget (Json.obj [("packages", jset (Json.obj []) [S, "settings"] v)]) _ = _
    rw [hpack, jget_jset_ne_head _ S X hne]
    rfl
  | num n =>
    show jget (Json.obj [("packages", jset (Json.obj []) [S, "settings"] v)]) _ = _
    rw [hpack, jget_jset_ne_head _ S X hne]
    rfl
  | str s =>
    show jget (Json.obj [("packages", jset (Json.obj []) [S, "settings"] v)]) _ = _
    rw [hpack, jget_jset_ne_head _ S X hne]
    rfl

theorem dotSplit_no_dot (cs : List Char) (h : ('.' : Char) ∉ cs) :
    dotSplit cs = [cs] := by
  induction cs with
  | nil => rfl
  | cons c cs ih =>
    have hc : ¬ c = '.' := fun hk => h (hk ▸ List.mem_cons_self c cs)
    have hcs : ('.' : Char) ∉ cs := fun hk => h (List.mem_cons_of_mem c hk)
    simp only [dotSplit]
    rw [if_neg hc, ih hcs]

theorem segsOf_no_dot (s : String) (h : ('.' : Char) ∉ s.data) :
    segsOf s = [s] := by
  cases s with
  | mk data =>
    simp [segsOf, dotSplit_no_dot data h]

theorem splitSegs_three (a b c : String) (ha : ('.' : Char) ∉ a.data)
    (hb : ('.' : Char) ∉ b.data) (hc : ('.' : Char) ∉ c.data) :
    splitSegs [a, b, c] = [a, b, c] := by
  simp [splitSegs, segsOf_no_dot a ha, segsOf_no_dot b hb, segsOf_no_dot c hc]

/-- C3: `setSettings` from sender `S` (with a well-formed, dot-free node
name) either leaves the store untouched or writes exactly at
`packages.S.settings`; any other node's `packages.X.settings` sub-tree reads
the same after the handler as before; and `getSettings` from `S` replies
with the stored `packages.S.settings` value. -/
theorem setSettings_writes_only_own_subtree (db : Json) (p : Packet)
    (hS : ('.' : Char) ∉ p.sender.data) :
    (∀ db' e, setSettingsHandler db p = Except.ok (db', e) →
      db' = db ∨ ∃ v, db' = EditJsonFile.set db ["packages", p.sender, "settings"] v)
    ∧ (∀ X, ('.' : Char) ∉ X.data → X ≠ p.sender →
        ∀ db' e, setSettingsHandler db p = Except.ok (db', e) →
          EditJsonFile.get db' ["packages", X, "settings"]
            = EditJsonFile.get db ["packages", X, "settings"])
    ∧ (∀ s, EditJsonFile.get db ["packages", p.sender, "settings"] = some s →
        getSettingsHandler db p
          = Server.returnEmit { p with data := some [("result", s)] }) := by
  have hstep : ∀ db' e, setSettingsHandler db p = Except.ok (db', e) →
      db' = db ∨ ∃ v, db' = EditJsonFile.set db ["packages", p.sender, "settings"] v := by
    intro db' e h
    unfold setSettingsHandler at h
    split at h
    · exact absurd h (by simp)
    · split at h
      · left
        exact (congrArg Prod.fst (Except.ok.inj h)).symm
      · split at h
        · right
          exact ⟨_, (congrArg Prod.fst (Except.ok.inj h)).symm⟩
        · left
          exact (congrArg Prod.fst (Except.ok.inj h)).symm
  refine ⟨hstep, ?_, ?_⟩
  · intro X hX hXne db' e h
    rcases hstep db' e h with rfl | ⟨v, rfl⟩
    · rfl
    · have hsplitS : splitSegs ["packages", p.sender, "settings"]
          = ["packages", p.sender, "settings"] :=
        splitSegs_three _ _ _ (by decide) hS (by decide)
      have hsplitX : splitSegs ["packages", X, "settings"]
          = ["packages", X, "settings"] :=
        splitSegs_three _ _ _ (by decide) hX (by decide)
      unfold EditJsonFile.get EditJsonFile.set
      rw [hsplitS, hsplitX]
      exact settings_frame db p.sender X hXne v
  · intro s hs
    unfold getSettingsHandler
    rw [hs]

/-- C3 witness: `alice` writing her settings leaves `bob`'s
`packages.bob.settings` untouched, and `getSettings` for `alice` reads her
stored sub-tree. -/
theorem setSettings_writes_only_own_subtree_witness :
    EditJsonFile.get
        (EditJsonFile.set sampleDb ["packages", "alice", "settings"]
          (Json.obj [("theme", Json.str "light")]))
        ["packages", "bob", "settings"]
      = EditJsonFile.get sampleDb ["packages", "bob", "settings"]
    ∧ getSettingsHandler sampleDb setSettingsPacket
      = Server.returnEmit { setSettingsPacket with
          data := some [("result", Json.obj [("theme", Json.str "dark")])] } := by
  have h := setSettings_writes_only_own_subtree sampleDb setSettingsPacket (by decide)
  constructor
  · exact h.2.1 "bob" (by decide) (by decide) _ _ rfl
  · exact h.2.2 (Json.obj [("theme", Json.str "dark")]) rfl

theorem pollFrom_some (g : Nat → Bool) :
    ∀ (fuel i : Nat) (l : List ClientEvent), pollFrom g i fuel = some l →
      ClientEvent.greenLightPoll true ∈ l
      ∧ ∀ e ∈ l, ∃ b, e = ClientEvent.greenLightPoll b := by
  intro fuel
  induction fuel with
  | zero => intro i l h; exact absurd h (by simp [pollFrom])
  | succ n ih =>
    intro i l h
    simp only [pollFrom] at h
    by_cases hg : g i
    · rw [if_pos hg] at h
      obtain rfl := (Option.some.inj h).symm
      refine ⟨List.mem_singleton_self _, ?_⟩
      intro e he
      rw [List.mem_singleton] at he
      exact ⟨true, he⟩
    · rw [if_neg hg] at h
      cases hrec : pollFrom g (i + 1) n with
      | none => rw [hrec] at h; exact absurd h (by simp)
      | some l' =>
        rw [hrec] at h
        simp only [Option.map_some'] at h
        obtain rfl := (Option.some.inj h).symm
        obtain ⟨h1, h2⟩ := ih (i + 1) l' hrec
        refine ⟨List.mem_cons_of_mem _ h1, ?_⟩
        intro e he
        rcases List.mem_cons.mp he with rfl | he'
        · exact ⟨false, rfl⟩
        · exact h2 e he'

theorem pollFrom_none_of_all_false (g : Nat → Bool) (hg : ∀ n, g n = false) :
    ∀ (fuel i : Nat), pollFrom g i fuel = none := by
  intro fuel
  induction fuel with
  | zero => intro i; rfl
  | succ n ih =>
    intro i
    simp only [pollFrom]
    rw [if_neg (by rw [hg i]; exact Bool.false_ne_true), ih (i + 1)]
    rfl

/-- C6: in the spec-modelled client startup sequence, the step that binds
the user-registered domain API handlers occurs exactly once, and strictly
after a greenLight poll that returned `true`; if the hub never grants the
green light, the startup trace never reaches the binding step at all, so no
domain handler can fire before `greenLight` returns `true`. -/
theorem handlers_bound_only_after_greenLight (g : Nat → Bool) (fuel : Nat) :
    (∀ tr, clientRunTrace g fuel = some tr →
      ∃ pre post, tr = pre ++ ClientEvent.handlersBound :: post
        ∧ ClientEvent.greenLightPoll true ∈ pre
        ∧ ClientEvent.handlersBound ∉ pre
        ∧ ClientEvent.handlersBound ∉ post)
    ∧ ((∀ n, g n = false) → clientRunTrace g fuel = none) := by
  constructor
  · intro tr htr
    unfold clientRunTrace at htr
    cases hp : pollFrom g 0 fuel with
    | none => rw [hp] at htr; exact absurd htr (by simp)
    | some polls =>
      rw [hp] at htr
      simp only [Option.map_some'] at htr
      obtain rfl := (Option.some.inj htr).symm
      obtain ⟨hmem, hall⟩ := pollFrom_some g fuel 0 polls hp
      refine ⟨[ClientEvent.connected, ClientEvent.nodeInitSent,
          ClientEvent.baseListenersInstalled] ++ polls ++ [ClientEvent.onInitRun],
        [ClientEvent.onConnectRun], ?_, ?_, ?_, ?_⟩
      · simp
      · simp [hmem]
      · intro hin
        simp only [List.mem_append] at hin
        rcases hin with hin | hin
        · rcases hin with hin | hin
          · simp at hin
          · obtain ⟨b, hb⟩ := hall _ hin
            simp at hb
        · simp at hin
      · intro hin
        simp at hin
  · intro hg
    unfold clientRunTrace
    rw [pollFrom_none_of_all_false g hg fuel 0]
    rfl

/-- C6 witness: with the hub granting the green light on the second poll the
trace decomposes with a `true` poll strictly before the handler-binding
step; with the light never granted the startup never completes. -/
theorem handlers_bound_only_after_greenLight_witness :
    (∃ pre post,
      [ClientEvent.connected, ClientEvent.nodeInitSent,
       ClientEvent.baseListenersInstalled, ClientEvent.greenLightPoll false,
       ClientEvent.greenLightPoll true, ClientEvent.onInitRun,
       ClientEvent.handlersBound, ClientEvent.onConnectRun]
        = pre ++ ClientEvent.handlersBound :: post
      ∧ ClientEvent.greenLightPoll true ∈ pre
      ∧ ClientEvent.handlersBound ∉ pre
      ∧ ClientEvent.handlersBound ∉ post)
    ∧ clientRunTrace (fun _ => false) 3 = none := by
  constructor
  · exact (handlers_bound_only_after_greenLight (fun n => n == 1) 3).1 _ rfl
  · exact (handlers_bound_only_after_greenLight (fun _ => false) 3).2 (fun n => rfl)
